import Mathlib

/-!
Shallow embedding of the `alx-files_manager` backend (FilesController,
worker) and proofs about its file-listing, content-read, visibility and
thumbnail-generation operations.

Conventions of the embedding:
* MongoDB document field values that the code stores with differing
  JavaScript types (the number `0`, plain strings, `ObjectId`s) are
  modelled by the inductive `BVal`; MongoDB equality of such values is
  structural equality, so values built from different constructors are
  never equal (a number never matches a string, a string never matches
  an ObjectId).
* A collection is a list of documents; `findOne` is `List.find?`
  (first match in insertion order) and `insertOne` appends.
* ObjectId identifiers are the underlying 24-hex strings; generating a
  fresh id is modelled by an explicit `newId` parameter.
* The local disk is a flat association list from paths to file
  contents; file contents are kept as opaque strings (Base64 decoding
  is a pure utility outside the modelled core).
* Fallible I/O outcomes (fs write success, per-width thumbnail
  success) are explicit boolean/function parameters.
* Express responses are the `Response` inductive; a thrown driver
  exception (e.g. `ObjectId` applied to a non-24-hex string) is the
  `Response.exception` constructor.
-/

namespace FilesManager

/-- A MongoDB-stored value as the JavaScript code produces it: a JS
number, a JS string, or a BSON ObjectId (carrying its 24-hex text). -/
inductive BVal where
  | num (n : Nat)
  | str (s : String)
  | oid (s : String)
deriving DecidableEq, Repr

/-- A document of the `files` collection, with the fields written by
`postUpload` (`_id` is set by `insertOne`; `localPath` only exists for
non-folder documents). -/
structure FileDoc where
  _id : String
  userId : String
  name : String
  type : String
  isPublic : Bool
  parentId : BVal
  localPath : Option String
deriving DecidableEq, Repr

/-- The projected shape the controller sends back for one file. -/
structure FileOut where
  id : String
  userId : String
  name : String
  type : String
  isPublic : Bool
  parentId : BVal
deriving DecidableEq, Repr

/-- A job added to the Bull queue by `postUpload`
(`fileQueue.add({userId, fileId})`). -/
structure QJob where
  userId : String
  fileId : String
deriving DecidableEq, Repr

/-- An HTTP outcome of a controller call. `exception` stands for a
thrown error escaping the handler (e.g. `ObjectId('')`). -/
inductive Response where
  | unauthorized
  | badRequest (msg : String)
  | notFound
  | created (f : FileOut)
  | okFile (f : FileOut)
  | okList (fs : List FileOut)
  | content (data : String)
  | exception
deriving DecidableEq, Repr

/-- `const NULL_ID = Buffer.alloc(24, '0').toString('utf-8')`. -/
def NULL_ID : String := "000000000000000000000000"

/-- `const MAX_FILES_PER_PAGE = 20`. -/
def MAX_FILES_PER_PAGE : Nat := 20

/-- `isValidId` from `FilesController.js`: exactly 24 characters, each
with a char code in [48,57] (0-9), [97,102] (a-f) or [65,70] (A-F). -/
def isValidId (id : String) : Bool :=
  id.length = 24 &&
    id.data.all (fun c =>
      (48 ≤ c.toNat && c.toNat ≤ 57) ||
      (97 ≤ c.toNat && c.toNat ≤ 102) ||
      (65 ≤ c.toNat && c.toNat ≤ 70))

/-- The Redis session store: `auth_<token> → userId` pairs. -/
abbrev Sessions := List (String × String)

/-- The `users` collection, reduced to the list of user id strings
(the only field the modelled operations consult). -/
abbrev Users := List String

/-- The local disk: path → file content. Later entries are shadowed by
earlier ones; `dstore` prepends. -/
abbrev Disk := List (String × String)

/-- `fs.readFileSync`, as a lookup: first entry whose path matches. -/
def dlookup (d : Disk) (path : String) : Option String :=
  match d with
  | [] => none
  | e :: es => if e.1 = path then some e.2 else dlookup es path

/-- `fs.writeFile` on success: (over)write `path` with `data`. -/
def dstore (d : Disk) (path data : String) : Disk :=
  (path, data) :: d

/-- The token-resolution chain shared by the handlers:
`req.header('X-Token')` → `RedisClient.get('auth_' + token)` →
`users.findOne({_id: ObjectId(value)})`; any missing step resolves to
no user. Session values are user ids stored by `getConnect`, so they
are valid ObjectId text. -/
def resolveUser (sessions : Sessions) (users : Users) :
    Option String → Option String
  | none => none
  | some tok =>
    match (List.find? (fun e => e.1 = tok) sessions : Option (String × String)) with
    | none => none
    | some e => if users.contains e.2 then some e.2 else none

/-- JS `x || d` for an optional string: absent and the empty string
are falsy. -/
def jsOr (v : Option String) (d : String) : String :=
  match v with
  | none => d
  | some s => if s = "" then d else s

/-- JS falsiness of an optional string value. -/
def jsFalsy (v : Option String) : Bool :=
  match v with
  | none => true
  | some s => s = ""

/-! ### GET /files — `getIndex` (src/controllers/FilesController.js) -/

/-- Insertion step of the aggregation sort on `_id` descending. -/
def insertByIdDesc (f : FileDoc) : List FileDoc → List FileDoc
  | [] => [f]
  | g :: gs => if g._id < f._id then f :: g :: gs else g :: insertByIdDesc f gs

/-- The aggregation stage sorting by `_id` descending. -/
def sortByIdDesc : List FileDoc → List FileDoc
  | [] => []
  | f :: fs => insertByIdDesc f (sortByIdDesc fs)

/-- The aggregation projection stage of `getIndex`: keep the fields,
rename `_id` to `id`, and replace a `parentId` equal to the string
`'0'` by the number `0`. -/
def projectFile (f : FileDoc) : FileOut :=
  { id := f._id, userId := f.userId, name := f.name, type := f.type,
    isPublic := f.isPublic,
    parentId := if f.parentId = BVal.str "0" then BVal.num 0 else f.parentId }

/-- The `parentId` component of `filesFilter` in `getIndex`: the query
string itself when it is `'0'`, otherwise the ObjectId of the query
(substituting `NULL_ID` when the query is not 24-hex). -/
def indexParentFilter (parentId : String) : BVal :=
  if parentId = "0" then BVal.str parentId
  else BVal.oid (if isValidId parentId then parentId else NULL_ID)

/-- `getIndex` (GET /files), after the middleware resolved `user`:
filter `{userId: user._id, parentId: filesFilter.parentId}`, sort by
`_id` descending, skip `page * 20`, limit 20, project. `page` is the
already-parsed page number (`parseInt(req.query.page, 10)` with
default 0). -/
def getIndex (files : List FileDoc) (uid : String)
    (parentIdQ : Option String) (page : Nat) : Response :=
  let parentId := jsOr parentIdQ "0"
  let pfilter := indexParentFilter parentId
  let matched := files.filter (fun f => f.userId = uid && f.parentId = pfilter)
  let sorted := sortByIdDesc matched
  Response.okList
    (((sorted.drop (page * MAX_FILES_PER_PAGE)).take MAX_FILES_PER_PAGE).map
      projectFile)

/-! ### POST /files — `postUpload` -/

/-- `let idParent = req.body.parentId || 0; idParent = idParent === '0'
? 0 : idParent;` — absent, empty and `'0'` all become the number 0;
anything else stays the received string. -/
def normalizeParent (parentIdB : Option String) : BVal :=
  match parentIdB with
  | none => BVal.num 0
  | some s => if s = "" then BVal.num 0
              else if s = "0" then BVal.num 0
              else BVal.str s

/-- The request-body fields `postUpload` reads. -/
structure UploadArgs where
  token : Option String
  name : Option String
  type : Option String
  data : Option String
  isPublic : Option Bool
  parentId : Option String

/-- The observable outcome of `postUpload`: the HTTP response, the
`files` collection, the disk, and the jobs added to the Bull queue. -/
structure UploadResult where
  resp : Response
  files : List FileDoc
  disk : Disk
  jobs : List QJob
deriving DecidableEq, Repr

/-- The parent validation block of `postUpload` (`if (idParent !== 0)
...`): nothing to check for the numeric root 0; otherwise
`ObjectId(idParent)` throws on non-24-hex text, `findOne` missing is
`Parent not found`, and a non-folder parent is
`Parent is not a folder`. -/
def parentError (files : List FileDoc) : BVal → Option Response
  | BVal.str s =>
    if !isValidId s then some Response.exception
    else
      match files.find? (fun f => f._id = s) with
      | none => some (Response.badRequest "Parent not found")
      | some p =>
        if p.type = "folder" then none
        else some (Response.badRequest "Parent is not a folder")
  | _ => none

/-- The 201 body sent for a newly inserted document (fields echoed
as stored, `id` being the inserted `_id`). -/
def projectNew (f : FileDoc) : FileOut :=
  { id := f._id, userId := f.userId, name := f.name, type := f.type,
    isPublic := f.isPublic, parentId := f.parentId }

/-- `postUpload` (POST /files). `pathDir` is `FOLDER_PATH` or its
default, `uuid` the generated file name, `newId` the ObjectId that
`insertOne` assigns, `writeOk` the outcome of the `fs.writeFile` call.
The content written to disk is kept as the raw `data` string (Base64
decoding is an external pure utility).

Both `fs.mkdir` and `fs.writeFile` are called with Node callbacks that
the code does not wait for: a callback error triggers an extra
`res.status(400)` send but cannot abort the handler, so the metadata
`insertOne`, the queue `add` and the 201 response happen regardless of
the write outcome; only the disk content depends on `writeOk`. -/
def postUpload (files : List FileDoc) (disk : Disk) (sessions : Sessions)
    (users : Users) (args : UploadArgs) (pathDir uuid newId : String)
    (writeOk : Bool) : UploadResult :=
  match resolveUser sessions users args.token with
  | none => ⟨Response.unauthorized, files, disk, []⟩
  | some uid =>
    if jsFalsy args.name then ⟨Response.badRequest "Missing name", files, disk, []⟩
    else
      let fileName := jsOr args.name ""
      let fileType := jsOr args.type ""
      if fileType = "" || !(["folder", "file", "image"].contains fileType) then
        ⟨Response.badRequest "Missing type", files, disk, []⟩
      else if jsFalsy args.data && ["file", "image"].contains fileType then
        ⟨Response.badRequest "Missing data", files, disk, []⟩
      else
        let fileIsPublic := args.isPublic.getD false
        let idParent := normalizeParent args.parentId
        match parentError files idParent with
        | some r => ⟨r, files, disk, []⟩
        | none =>
          if fileType = "folder" then
            let dbFile : FileDoc :=
              ⟨newId, uid, fileName, fileType, fileIsPublic, idParent, none⟩
            ⟨Response.created (projectNew dbFile), files ++ [dbFile], disk, []⟩
          else
            let pathFile := pathDir ++ "/" ++ uuid
            let disk1 := if writeOk then dstore disk pathFile (jsOr args.data "")
                         else disk
            let dbFile : FileDoc :=
              ⟨newId, uid, fileName, fileType, fileIsPublic, idParent,
                some pathFile⟩
            ⟨Response.created (projectNew dbFile), files ++ [dbFile], disk1,
              [⟨uid, newId⟩]⟩

/-! ### GET /files/:id — `getShow` -/

/-- JS `.toString()` of a stored value: a number prints in decimal, a
string is itself, an ObjectId prints its hex text. -/
def pvalToString : BVal → String
  | BVal.num n => toString n
  | BVal.str s => s
  | BVal.oid s => s

/-- `getShow` (GET /files/:id), after the middleware attached `user`:
look up `{_id: ObjectId(isValidId(id) ? id : NULL_ID), userId:
ObjectId(isValidId(userId) ? userId : NULL_ID)}`; 404 when absent,
otherwise echo the document (with the raw request `id`/`userId` and
the `parentId === '0' ? 0 : parentId.toString()` serialization). -/
def getShow (files : List FileDoc) (uid : String) (id : String) : Response :=
  let qid := if isValidId id then id else NULL_ID
  let quid := if isValidId uid then uid else NULL_ID
  match files.find? (fun f => f._id = qid && f.userId = quid) with
  | none => Response.notFound
  | some f =>
    Response.okFile
      { id := id, userId := uid, name := f.name, type := f.type,
        isPublic := f.isPublic,
        parentId := if f.parentId = BVal.str "0" then BVal.num 0
                    else BVal.str (pvalToString f.parentId) }

/-! ### PUT /files/:id/publish and /unpublish -/

/-- Mongo `update` with its default single-document behavior: apply
`u` to the first document satisfying `p`. -/
def updateFirst (files : List FileDoc) (p : FileDoc → Bool)
    (u : FileDoc → FileDoc) : List FileDoc :=
  match files with
  | [] => []
  | f :: fs => if p f then u f :: fs else f :: updateFirst fs p u

/-- A visibility call's outcome: the response and the resulting
`files` collection. -/
structure VisibilityResult where
  resp : Response
  files : List FileDoc
deriving DecidableEq, Repr

/-- The body echoed by the publish/unpublish handlers. -/
def echoDoc (f : FileDoc) : FileOut :=
  { id := f._id, userId := f.userId, name := f.name, type := f.type,
    isPublic := f.isPublic, parentId := f.parentId }

/-- `putPublish` (PUT /files/:id/publish): auth chain, then
`findOne({_id: ObjectId(idFile), userId: user._id})` — 404 when that
misses — then `update({_id}, {$set: {isPublic: true}})` (no owner
filter on the update), re-read with the owner filter, echo. -/
def putPublish (files : List FileDoc) (sessions : Sessions) (users : Users)
    (token : Option String) (idParam : Option String) : VisibilityResult :=
  match resolveUser sessions users token with
  | none => ⟨Response.unauthorized, files⟩
  | some uid =>
    let idFile := jsOr idParam ""
    if !isValidId idFile then ⟨Response.exception, files⟩
    else
      match files.find? (fun f => f._id = idFile && f.userId = uid) with
      | none => ⟨Response.notFound, files⟩
      | some _ =>
        let files1 := updateFirst files (fun f => f._id = idFile)
          (fun f => { f with isPublic := true })
        match files1.find? (fun f => f._id = idFile && f.userId = uid) with
        | none => ⟨Response.exception, files1⟩
        | some f => ⟨Response.okFile (echoDoc f), files1⟩

/-- `putUnpublish` (PUT /files/:id/unpublish): same shape, but the
update filter also carries `userId: user._id` and sets
`isPublic: false`. -/
def putUnpublish (files : List FileDoc) (sessions : Sessions) (users : Users)
    (token : Option String) (idParam : Option String) : VisibilityResult :=
  match resolveUser sessions users token with
  | none => ⟨Response.unauthorized, files⟩
  | some uid =>
    let idFile := jsOr idParam ""
    if !isValidId idFile then ⟨Response.exception, files⟩
    else
      match files.find? (fun f => f._id = idFile && f.userId = uid) with
      | none => ⟨Response.notFound, files⟩
      | some _ =>
        let files1 := updateFirst files (fun f => f._id = idFile && f.userId = uid)
          (fun f => { f with isPublic := false })
        match files1.find? (fun f => f._id = idFile && f.userId = uid) with
        | none => ⟨Response.exception, files1⟩
        | some f => ⟨Response.okFile (echoDoc f), files1⟩

/-! ### GET /files/:id/data — `getFile` -/

/-- Modelled from the spec's words (§4.3 Access Resolver), for
comparison with the decision `getFile` makes: true iff
`file.isPublic` OR (the requester is present AND equals the file's
owner). -/
def CanRead (requester : Option String) (f : FileDoc) : Bool :=
  f.isPublic ||
    (match requester with
     | none => false
     | some r => r = f.userId)

/-- The path `getFile` reads: `const size = req.query.size || 0;
... size === 0 ? localPath : localPath + '_' + size` — an absent or
empty `size` query is the number 0 and selects the original; any
other string is appended after an underscore. -/
def requestedPath (lp : String) (sizeQ : Option String) : String :=
  match sizeQ with
  | none => lp
  | some s => if s = "" then lp else lp ++ "_" ++ s

/-- `getFile` (GET /files/:id/data): look the document up by id alone,
resolve the requester from the optional token, 404 when the document
is neither public nor owned by the requester, 400 for a folder, then
read `localPath` (or `localPath + '_' + size` when a truthy `size`
query is present; `req.query.size || 0` makes absent and empty
selectors the number 0, i.e. the original). A failed `readFileSync`
(path absent, or `localPath` undefined) is the caught-error 404. The
Content-Type header is not modelled. -/
def getFile (files : List FileDoc) (disk : Disk) (sessions : Sessions)
    (users : Users) (idParam : Option String) (sizeQ : Option String)
    (token : Option String) : Response :=
  let idFile := jsOr idParam ""
  if !isValidId idFile then Response.exception
  else
    match files.find? (fun f => f._id = idFile) with
    | none => Response.notFound
    | some doc =>
      let owner :=
        match resolveUser sessions users token with
        | none => false
        | some uid => uid = doc.userId
      if !doc.isPublic && !owner then Response.notFound
      else if doc.type = "folder" then
        Response.badRequest "A folder doesn't have content"
      else
        match doc.localPath with
        | none => Response.notFound
        | some lp =>
          match dlookup disk (requestedPath lp sizeQ) with
          | none => Response.notFound
          | some dataFile => Response.content dataFile

/-! ### Worker — `fileQueue.process` (src/worker.js) -/

/-- The deterministic derivative location used by `generateThumbnail`:
the original location suffixed with an underscore and the width. -/
def derivPath (filePath : String) (size : Nat) : String :=
  filePath ++ "_" ++ toString size

/-- Outcome of processing one `fileQueue` job: `fatal` is a thrown
error, `acked` means `done()` ran (the job is removed from the queue),
`notAcked` means `done()` never ran (the `Promise.all` rejected), so
the job stays unacknowledged and retryable. -/
inductive JobResult where
  | fatal (msg : String)
  | acked
  | notAcked
deriving DecidableEq, Repr

/-- A `GenerateThumbnails` job payload. -/
structure Job where
  fileId : Option String
  userId : Option String
deriving DecidableEq, Repr

/-- `const sizes = [500, 250, 100]`. -/
def SIZES : List Nat := [500, 250, 100]

/-- One width's `generateThumbnail` succeeds when the original can be
read, the thumbnailer yields bytes for that width, and the write of
the derivative succeeds. -/
def genOk (disk : Disk) (thumb : String → Nat → Option String)
    (writeOk : Nat → Bool) (lp : String) (size : Nat) : Bool :=
  match dlookup disk lp with
  | none => false
  | some orig => (thumb orig size).isSome && writeOk size

/-- The outcome of one worker delivery: the job result and the disk. -/
structure WorkerResult where
  result : JobResult
  disk : Disk
deriving DecidableEq, Repr

/-- The `fileQueue.process` handler: check `fileId`/`userId`, look the
file up by `{_id, userId}`, then run `generateThumbnail` for each of
the three widths concurrently — every successful width writes its
derivative at `derivPath`, a failed width writes nothing — and call
`done()` only from the `Promise.all` fulfillment, i.e. only when all
three widths succeeded. `thumb` is the deterministic image-thumbnail
function (`none` = generation failure for those bytes/width),
`writeOk` the per-width write outcome. Each width reads the original
bytes as they were when the job started; no width writes to the
original's location. -/
def processFileJob (files : List FileDoc) (disk : Disk)
    (thumb : String → Nat → Option String) (writeOk : Nat → Bool)
    (job : Job) : WorkerResult :=
  match job.fileId with
  | none => ⟨JobResult.fatal "Missing fileId", disk⟩
  | some fid =>
    match job.userId with
    | none => ⟨JobResult.fatal "Missing userId", disk⟩
    | some uid =>
      if !isValidId fid || !isValidId uid then
        ⟨JobResult.fatal "BSONTypeError", disk⟩
      else
        match files.find? (fun f => f._id = fid && f.userId = uid) with
        | none => ⟨JobResult.fatal "File not found", disk⟩
        | some file =>
          match file.localPath with
          | none => ⟨JobResult.notAcked, disk⟩
          | some lp =>
            let disk1 := SIZES.foldl
              (fun d size =>
                match dlookup disk lp with
                | none => d
                | some orig =>
                  match thumb orig size with
                  | none => d
                  | some tb =>
                    if writeOk size then dstore d (derivPath lp size) tb
                    else d)
              disk
            if SIZES.all (genOk disk thumb writeOk lp) then
              ⟨JobResult.acked, disk1⟩
            else ⟨JobResult.notAcked, disk1⟩

/-! ### Concrete fixtures for counterexamples and witnesses -/

/-- A user id (valid 24-hex ObjectId text). -/
def uidA : String := "aaaaaaaaaaaaaaaaaaaaaaaa"

/-- A second user id. -/
def uidB : String := "bbbbbbbbbbbbbbbbbbbbbbbb"

/-- A file id. -/
def fidC : String := "cccccccccccccccccccccccc"

/-- Two live sessions, one per user. -/
def sessAB : Sessions := [("tokA", uidA), ("tokB", uidB)]

/-- The `users` collection holding both users. -/
def usersAB : Users := [uidA, uidB]

/-- The default storage folder. -/
def pathD : String := "/tmp/files_manager"

/-- A valid `POST /files` body from user A: a root-level `file` with
content. -/
def argsFileA : UploadArgs :=
  ⟨some "tokA", some "hello.txt", some "file", some "SGVsbG8=", none, none⟩

/-- A public non-folder document owned by user A. -/
def pubDocC : FileDoc :=
  ⟨fidC, uidA, "hello.txt", "file", true, BVal.num 0, some "/tmp/files_manager/u1"⟩

/-- A private (non-public) folder owned by user A. -/
def privFolderC : FileDoc :=
  ⟨fidC, uidA, "docs", "folder", false, BVal.num 0, none⟩

/-- A private image document owned by user A. -/
def imgDocC : FileDoc :=
  ⟨fidC, uidA, "pic.png", "image", false, BVal.num 0, some "/tmp/files_manager/u1"⟩

/-- A disk holding only the original content of `pubDocC`/`imgDocC`. -/
def diskOrig : Disk := [("/tmp/files_manager/u1", "ORIG")]

/-- A document whose `parentId` is the string `'0'` — the only root
shape the listing's filter can match (not the shape `postUpload`
stores). -/
def rootStrDoc : FileDoc :=
  ⟨fidC, uidA, "n.txt", "file", false, BVal.str "0", none⟩

/-- A deterministic stand-in thumbnailer that always succeeds. -/
def thumbFix : String → Nat → Option String :=
  fun s w => some (toString w ++ ":" ++ s)

/-! ### Helper lemmas -/

theorem dlookup_cons (k v : String) (d : Disk) (q : String) :
    dlookup ((k, v) :: d) q = if k = q then some v else dlookup d q := rfl

theorem mem_insertByIdDesc {g f : FileDoc} :
    ∀ {l : List FileDoc}, g ∈ insertByIdDesc f l ↔ g = f ∨ g ∈ l := by
  intro l
  induction l with
  | nil => simp [insertByIdDesc]
  | cons a as ih =>
    by_cases h : a._id < f._id
    · simp [insertByIdDesc, h]
    · simp only [insertByIdDesc, if_neg h, List.mem_cons, ih]
      tauto

theorem length_insertByIdDesc (f : FileDoc) :
    ∀ l : List FileDoc, (insertByIdDesc f l).length = l.length + 1 := by
  intro l
  induction l with
  | nil => rfl
  | cons a as ih =>
    by_cases h : a._id < f._id
    · simp [insertByIdDesc, h]
    · simp [insertByIdDesc, h, ih]

theorem mem_sortByIdDesc {g : FileDoc} :
    ∀ {l : List FileDoc}, g ∈ sortByIdDesc l ↔ g ∈ l := by
  intro l
  induction l with
  | nil => simp [sortByIdDesc]
  | cons a as ih => simp [sortByIdDesc, mem_insertByIdDesc, ih]

theorem length_sortByIdDesc :
    ∀ l : List FileDoc, (sortByIdDesc l).length = l.length := by
  intro l
  induction l with
  | nil => rfl
  | cons a as ih => simp [sortByIdDesc, length_insertByIdDesc, ih]

theorem pairwise_insertByIdDesc (f : FileDoc) :
    ∀ {l : List FileDoc},
      l.Pairwise (fun a b => b._id ≤ a._id) →
      (insertByIdDesc f l).Pairwise (fun a b => b._id ≤ a._id) := by
  intro l
  induction l with
  | nil => intro _; simp [insertByIdDesc]
  | cons a as ih =>
    intro h
    rw [List.pairwise_cons] at h
    obtain ⟨ha, has⟩ := h
    by_cases hlt : a._id < f._id
    · rw [insertByIdDesc, if_pos hlt, List.pairwise_cons]
      refine ⟨?_, List.pairwise_cons.2 ⟨ha, has⟩⟩
      intro x hx
      rcases List.mem_cons.1 hx with hxa | hxs
      · exact hxa ▸ le_of_lt hlt
      · exact le_trans (ha x hxs) (le_of_lt hlt)
    · rw [insertByIdDesc, if_neg hlt, List.pairwise_cons]
      refine ⟨?_, ih has⟩
      intro x hx
      rcases mem_insertByIdDesc.1 hx with hxf | hxs
      · exact hxf ▸ le_of_not_lt hlt
      · exact ha x hxs

theorem pairwise_sortByIdDesc :
    ∀ l : List FileDoc,
      (sortByIdDesc l).Pairwise (fun a b => b._id ≤ a._id) := by
  intro l
  induction l with
  | nil => simp [sortByIdDesc]
  | cons a as ih => exact pairwise_insertByIdDesc a ih

theorem string_append_right_inj (s a b : String) (h : s ++ a = s ++ b) :
    a = b := by
  have hd : (s ++ a).data = (s ++ b).data := congrArg String.data h
  rw [String.data_append, String.data_append] at hd
  exact String.ext (List.append_cancel_left hd)

theorem derivPath_ne_self (p : String) (w : Nat) : derivPath p w ≠ p := by
  intro h
  have hlen := congrArg String.length h
  have hu : "_".length = 1 := rfl
  simp only [derivPath, String.length_append, hu] at hlen
  omega

theorem derivPath_width_eq {p : String} {v w : Nat}
    (h : derivPath p v = derivPath p w) : toString v = toString w :=
  string_append_right_inj (p ++ "_") _ _ h

theorem derivPath_ne_of_width (p : String) {v w : Nat}
    (hvw : toString v ≠ toString w) : derivPath p v ≠ derivPath p w :=
  fun h => hvw (derivPath_width_eq h)

/-- With an ownership-mismatch on every document carrying the looked-up
id, the owner-scoped `findOne` comes back empty. -/
theorem find_owner_none (files : List FileDoc) (fid uid : String)
    (hown : ∀ f ∈ files, f._id = fid → f.userId ≠ uid) :
    files.find? (fun f => f._id = fid && f.userId = uid) = none := by
  rw [List.find?_eq_none]
  intro f hf
  simp only [Bool.and_eq_true, decide_eq_true_eq, not_and]
  intro h1 h2
  exact hown f hf h1 h2

/-- Characterization of `getFile` on an existing document: the code's
visibility decision (`!isPublic && !owner → 404`) agrees with the
spec-worded `CanRead` applied to the resolved requester, the folder
check runs only after it, and a granted read serves whatever the disk
holds at the requested path. Shared backbone for the content-read
claims. -/
theorem getFile_eq (files : List FileDoc) (disk : Disk)
    (sessions : Sessions) (users : Users) (idParam sizeQ token : Option String)
    (doc : FileDoc)
    (hval : isValidId (jsOr idParam "") = true)
    (hfind : files.find? (fun f => f._id = jsOr idParam "") = some doc) :
    getFile files disk sessions users idParam sizeQ token =
      (if CanRead (resolveUser sessions users token) doc then
         (if doc.type = "folder" then
            Response.badRequest "A folder doesn't have content"
          else
            match doc.localPath with
            | none => Response.notFound
            | some lp =>
              match dlookup disk (requestedPath lp sizeQ) with
              | none => Response.notFound
              | some b => Response.content b)
       else Response.notFound) := by
  simp only [getFile, hval, Bool.not_true, Bool.false_eq_true, if_false, hfind]
  cases hr : resolveUser sessions users token with
  | none => cases hpub : doc.isPublic <;> simp [CanRead, hpub]
  | some uid =>
    by_cases hu : uid = doc.userId <;> cases hpub : doc.isPublic <;>
      simp [CanRead, hpub, hu]

/-! ### Claim theorems -/

/-- C2 counterexample: the claim's forward direction fails on the
code. For the existing public non-folder file `pubDocC` (so
`CanRead` holds even for an anonymous requester) over an empty disk,
`getFile` reports `notFound` instead of serving content. -/
theorem C2_counterexample :
    CanRead none pubDocC = true ∧ pubDocC.type ≠ "folder" ∧
    getFile [pubDocC] [] sessAB usersAB (some fidC) none none =
      Response.notFound := by
  refine ⟨by decide, by decide, by decide⟩

/-- C2 (amended): for every content-read request on an existing
non-folder file, when the spec's `CanRead` (isPublic OR authenticated
owner) fails the operation reports `notFound`; when it holds, the
content is served exactly when the requested bytes (original, or the
size-suffixed derivative when a size selector is given) exist on
disk, and `notFound` otherwise. -/
theorem C2_canRead_characterizes_serving (files : List FileDoc)
    (disk : Disk) (sessions : Sessions) (users : Users)
    (idParam sizeQ token : Option String) (doc : FileDoc)
    (hval : isValidId (jsOr idParam "") = true)
    (hfind : files.find? (fun f => f._id = jsOr idParam "") = some doc)
    (hty : doc.type ≠ "folder") :
    getFile files disk sessions users idParam sizeQ token =
      (if CanRead (resolveUser sessions users token) doc then
         (match doc.localPath with
          | none => Response.notFound
          | some lp =>
            match dlookup disk (requestedPath lp sizeQ) with
            | none => Response.notFound
            | some b => Response.content b)
       else Response.notFound) := by
  rw [getFile_eq files disk sessions users idParam sizeQ token doc hval hfind]
  simp [hty]

/-- Witness for C2 at a concrete input: anonymous read of the public
file `pubDocC` with its original bytes on disk. -/
theorem C2_canRead_characterizes_serving_witness :
    pubDocC.type ≠ "folder" ∧
    getFile [pubDocC] diskOrig sessAB usersAB (some fidC) none none =
      (if CanRead (resolveUser sessAB usersAB none) pubDocC then
         (match pubDocC.localPath with
          | none => Response.notFound
          | some lp =>
            match dlookup diskOrig (requestedPath lp none) with
            | none => Response.notFound
            | some b => Response.content b)
       else Response.notFound) :=
  ⟨by decide,
    C2_canRead_characterizes_serving [pubDocC] diskOrig sessAB usersAB
      (some fidC) none none pubDocC (by decide) (by decide) (by decide)⟩

/-- C4 counterexample: on the readable non-folder file `pubDocC`
whose original bytes are on disk, the selector-free read serves the
original, but `size=999` — contrary to the claimed fallback — reports
`notFound` (the code reads `<localPath>_999`, which does not exist). -/
theorem C4_counterexample :
    getFile [pubDocC] diskOrig sessAB usersAB (some fidC) none none =
      Response.content "ORIG" ∧
    getFile [pubDocC] diskOrig sessAB usersAB (some fidC) (some "999") none =
      Response.notFound := by
  refine ⟨by decide, by decide⟩

/-- C4 (amended): a non-empty size selector `s` is never validated
against {500, 250, 100}: the operation appends `_s` to the stored
location and serves whatever the disk holds there — so an unsupported
selector such as 999 yields `notFound` when no file exists at the
suffixed location, rather than falling back to the original bytes. -/
theorem C4_size_selector_no_fallback (files : List FileDoc)
    (disk : Disk) (sessions : Sessions) (users : Users)
    (idParam token : Option String) (s : String) (doc : FileDoc) (lp : String)
    (hval : isValidId (jsOr idParam "") = true)
    (hfind : files.find? (fun f => f._id = jsOr idParam "") = some doc)
    (hty : doc.type ≠ "folder")
    (hread : CanRead (resolveUser sessions users token) doc = true)
    (hlp : doc.localPath = some lp) (hs : s ≠ "") :
    getFile files disk sessions users idParam (some s) token =
      (match dlookup disk (lp ++ "_" ++ s) with
       | none => Response.notFound
       | some b => Response.content b) := by
  rw [getFile_eq files disk sessions users idParam (some s) token doc hval hfind]
  simp [hty, hread, hlp, requestedPath, hs]

/-- Witness for C4 at a concrete input: `size=999` on the public file
`pubDocC` with only the original bytes on disk. -/
theorem C4_size_selector_no_fallback_witness :
    pubDocC.type ≠ "folder" ∧
    CanRead (resolveUser sessAB usersAB none) pubDocC = true ∧
    getFile [pubDocC] diskOrig sessAB usersAB (some fidC) (some "999") none =
      (match dlookup diskOrig ("/tmp/files_manager/u1" ++ "_" ++ "999") with
       | none => Response.notFound
       | some b => Response.content b) :=
  ⟨by decide, by decide,
    C4_size_selector_no_fallback [pubDocC] diskOrig sessAB usersAB
      (some fidC) none "999" pubDocC "/tmp/files_manager/u1" (by decide)
      (by decide) (by decide) (by decide) (by decide) (by decide)⟩

/-- C9: in `getFile` the visibility check runs before the folder
check: an existing folder yields 404 `notFound` whenever the
spec's `CanRead` fails (non-public folder requested by anyone but its
owner, including anonymously), and the 400 folder error
`A folder doesn't have content` is produced exactly when `CanRead`
holds (the owner, or any requester on a public folder). -/
theorem C9_folder_visibility_before_folder_error (files : List FileDoc)
    (disk : Disk) (sessions : Sessions) (users : Users)
    (idParam sizeQ token : Option String) (doc : FileDoc)
    (hval : isValidId (jsOr idParam "") = true)
    (hfind : files.find? (fun f => f._id = jsOr idParam "") = some doc)
    (hty : doc.type = "folder") :
    getFile files disk sessions users idParam sizeQ token =
      (if CanRead (resolveUser sessions users token) doc then
         Response.badRequest "A folder doesn't have content"
       else Response.notFound) := by
  rw [getFile_eq files disk sessions users idParam sizeQ token doc hval hfind]
  simp [hty]

/-- Witness for C9 at a concrete input: the private folder
`privFolderC` of user A requested anonymously (CanRead fails → 404)
— the same instance evaluated with the owner's session produces the
folder error. -/
theorem C9_folder_visibility_before_folder_error_witness :
    privFolderC.type = "folder" ∧
    getFile [privFolderC] [] sessAB usersAB (some fidC) none none =
      (if CanRead (resolveUser sessAB usersAB none) privFolderC then
         Response.badRequest "A folder doesn't have content"
       else Response.notFound) :=
  ⟨by decide,
    C9_folder_visibility_before_folder_error [privFolderC] [] sessAB usersAB
      (some fidC) none none privFolderC (by decide) (by decide) (by decide)⟩

/-- C1 counterexample: the "root sentinel matching root-level files"
part of the claim fails on the code. After user A creates one file at
the root through `postUpload`, the store holds exactly one file of A
whose `parentId` is the numeric root sentinel 0 — yet page 0 of A's
default (root) listing comes back empty, because `getIndex` filters
root queries by the string `'0'` (and explicit parent queries by an
ObjectId, while `postUpload` stores plain strings), which never
equals what the create operation stored. -/
theorem C1_counterexample :
    (postUpload [] [] sessAB usersAB argsFileA pathD "u1" fidC true).files
      = [⟨fidC, uidA, "hello.txt", "file", false, BVal.num 0,
          some "/tmp/files_manager/u1"⟩] ∧
    getIndex
        (postUpload [] [] sessAB usersAB argsFileA pathD "u1" fidC true).files
        uidA none 0
      = Response.okList [] := by
  refine ⟨by decide, by decide⟩

/-- C1 (amended): for every owner, parentId query and zero-based page,
the listing returns at most 20 records, each the projection of a
stored record of the requesting owner whose `parentId` equals the
query-derived filter value (the string `'0'` for an absent or `'0'`
query, otherwise the ObjectId of the query — the all-zero id when the
query is not 24-hex), ordered by descending identifier; the page holds
`min 20 (matching − page×20)` records, so an out-of-range page yields
the empty sequence, never an error. (Records stored by the create
operation — numeric 0 at root, plain strings otherwise — never equal
the filter value, which is what the counterexample exhibits.) -/
theorem C1_listing_page_amended (files : List FileDoc) (uid : String)
    (parentIdQ : Option String) (page : Nat) (out : List FileOut)
    (h : getIndex files uid parentIdQ page = Response.okList out) :
    out.length ≤ MAX_FILES_PER_PAGE ∧
    out.length = min MAX_FILES_PER_PAGE
      ((files.filter (fun f => f.userId = uid &&
          f.parentId = indexParentFilter (jsOr parentIdQ "0"))).length
        - page * MAX_FILES_PER_PAGE) ∧
    (∀ r ∈ out, ∃ f ∈ files, f.userId = uid ∧
      f.parentId = indexParentFilter (jsOr parentIdQ "0") ∧
      projectFile f = r) ∧
    (∀ r ∈ out, r.userId = uid) ∧
    out.Pairwise (fun a b => b.id ≤ a.id) ∧
    ((files.filter (fun f => f.userId = uid &&
        f.parentId = indexParentFilter (jsOr parentIdQ "0"))).length
        ≤ page * MAX_FILES_PER_PAGE → out = []) := by
  have hout : out = (((sortByIdDesc (files.filter (fun f =>
      f.userId = uid &&
        f.parentId = indexParentFilter (jsOr parentIdQ "0")))).drop
        (page * MAX_FILES_PER_PAGE)).take MAX_FILES_PER_PAGE).map
          projectFile := by
    simp only [getIndex] at h
    exact (Response.okList.inj h).symm
  subst hout
  refine ⟨?_, ?_, ?_, ?_, ?_, ?_⟩
  · rw [List.length_map, List.length_take]
    exact min_le_left _ _
  · rw [List.length_map, List.length_take, List.length_drop,
      length_sortByIdDesc]
  · intro r hr
    rcases List.mem_map.1 hr with ⟨g, hg, rfl⟩
    have hgS := List.mem_of_mem_drop (List.mem_of_mem_take hg)
    have hgF := mem_sortByIdDesc.1 hgS
    rcases List.mem_filter.1 hgF with ⟨hmem, hpred⟩
    simp only [Bool.and_eq_true, decide_eq_true_eq] at hpred
    exact ⟨g, hmem, hpred.1, hpred.2, rfl⟩
  · intro r hr
    rcases List.mem_map.1 hr with ⟨g, hg, rfl⟩
    have hgS := List.mem_of_mem_drop (List.mem_of_mem_take hg)
    have hgF := mem_sortByIdDesc.1 hgS
    rcases List.mem_filter.1 hgF with ⟨_, hpred⟩
    simp only [Bool.and_eq_true, decide_eq_true_eq] at hpred
    exact hpred.1
  · have hS := pairwise_sortByIdDesc (files.filter (fun f =>
      f.userId = uid && f.parentId = indexParentFilter (jsOr parentIdQ "0")))
    have hsub : (((sortByIdDesc (files.filter (fun f =>
        f.userId = uid &&
          f.parentId = indexParentFilter (jsOr parentIdQ "0")))).drop
          (page * MAX_FILES_PER_PAGE)).take MAX_FILES_PER_PAGE).Sublist
        (sortByIdDesc (files.filter (fun f =>
          f.userId = uid &&
            f.parentId = indexParentFilter (jsOr parentIdQ "0")))) :=
      (List.take_sublist _ _).trans (List.drop_sublist _ _)
    have hT := hS.sublist hsub
    rw [List.pairwise_map]
    exact hT
  · intro hle
    have hnil : (sortByIdDesc (files.filter (fun f =>
        f.userId = uid &&
          f.parentId = indexParentFilter (jsOr parentIdQ "0")))).drop
          (page * MAX_FILES_PER_PAGE) = [] := by
      apply List.drop_eq_nil_of_le
      rw [length_sortByIdDesc]
      exact hle
    rw [hnil]
    rfl

/-- Witness for C1 at a concrete input: a store holding one document
whose `parentId` is the string `'0'` (the shape the filter matches);
the default listing of its owner returns exactly its projection. -/
theorem C1_listing_page_amended_witness :
    getIndex [rootStrDoc] uidA none 0
      = Response.okList [projectFile rootStrDoc] ∧
    ([projectFile rootStrDoc].length ≤ MAX_FILES_PER_PAGE ∧
     [projectFile rootStrDoc].length = min MAX_FILES_PER_PAGE
       (([rootStrDoc].filter (fun f => f.userId = uidA &&
           f.parentId = indexParentFilter (jsOr none "0"))).length
         - 0 * MAX_FILES_PER_PAGE) ∧
     (∀ r ∈ [projectFile rootStrDoc], ∃ f ∈ [rootStrDoc], f.userId = uidA ∧
       f.parentId = indexParentFilter (jsOr none "0") ∧
       projectFile f = r) ∧
     (∀ r ∈ [projectFile rootStrDoc], r.userId = uidA) ∧
     List.Pairwise (fun a b : FileOut => b.id ≤ a.id)
       [projectFile rootStrDoc] ∧
     (([rootStrDoc].filter (fun f => f.userId = uidA &&
         f.parentId = indexParentFilter (jsOr none "0"))).length
         ≤ 0 * MAX_FILES_PER_PAGE → [projectFile rootStrDoc] = [])) :=
  ⟨by decide,
    C1_listing_page_amended [rootStrDoc] uidA none 0
      [projectFile rootStrDoc] (by decide)⟩

/-- C5 (code bug evidence): `postUpload` calls `fs.mkdir` and
`fs.writeFile` with Node callbacks it does not await, so a failing
content write cannot abort the handler: evaluated at a valid
non-folder create whose disk write fails (`writeOk = false`), the
disk stays empty, yet the metadata record is inserted anyway and the
client still receives 201 Created — contradicting the claim that a
failed content write leaves the metadata store unchanged. -/
theorem C5_metadata_persisted_despite_write_failure :
    (postUpload [] [] sessAB usersAB argsFileA pathD "u1" fidC false).disk
      = [] ∧
    (postUpload [] [] sessAB usersAB argsFileA pathD "u1" fidC false).files
      = [⟨fidC, uidA, "hello.txt", "file", false, BVal.num 0,
          some "/tmp/files_manager/u1"⟩] ∧
    (postUpload [] [] sessAB usersAB argsFileA pathD "u1" fidC false).resp
      = Response.created ⟨fidC, uidA, "hello.txt", "file", false, BVal.num 0⟩ := by
  refine ⟨by decide, by decide, by decide⟩

/-- C3 counterexample: a successful creation of a plain `file` (not an
image) does enqueue a `{userId, fileId}` job, contrary to the claim
that only `kind=image` enqueues one. -/
theorem C3_counterexample :
    jsOr argsFileA.type "" = "file" ∧
    (postUpload [] [] sessAB usersAB argsFileA pathD "u1" fidC true).resp
      = Response.created ⟨fidC, uidA, "hello.txt", "file", false, BVal.num 0⟩ ∧
    (postUpload [] [] sessAB usersAB argsFileA pathD "u1" fidC true).jobs
      = [⟨uidA, fidC⟩] := by
  refine ⟨by decide, by decide, by decide⟩

/-- C3 (amended): `postUpload` enqueues one `{userId, fileId}` job for
every successful non-folder creation — kind `file` exactly as kind
`image` — and none for a folder creation. -/
theorem C3_job_enqueued_for_every_nonfolder (files : List FileDoc)
    (disk : Disk) (sessions : Sessions) (users : Users) (args : UploadArgs)
    (pathDir uuid newId : String) (writeOk : Bool) (uid : String)
    (hauth : resolveUser sessions users args.token = some uid)
    (hname : jsFalsy args.name = false)
    (hpar : parentError files (normalizeParent args.parentId) = none) :
    (jsOr args.type "" = "folder" →
      (postUpload files disk sessions users args pathDir uuid newId
        writeOk).jobs = []) ∧
    ((jsOr args.type "" = "file" ∨ jsOr args.type "" = "image") →
      jsFalsy args.data = false →
      (postUpload files disk sessions users args pathDir uuid newId
          writeOk).resp
        = Response.created ⟨newId, uid, jsOr args.name "", jsOr args.type "",
            args.isPublic.getD false, normalizeParent args.parentId⟩ ∧
      (postUpload files disk sessions users args pathDir uuid newId
          writeOk).jobs = [⟨uid, newId⟩]) := by
  constructor
  · intro hty
    simp [postUpload, hauth, hname, hpar, hty]
  · rintro (hty | hty) hdata <;>
      simp [postUpload, hauth, hname, hpar, hty, hdata, projectNew]

/-- Witness for C3 at concrete inputs: the valid `file` creation
`argsFileA` enqueues exactly one job. -/
theorem C3_job_enqueued_for_every_nonfolder_witness :
    resolveUser sessAB usersAB argsFileA.token = some uidA ∧
    jsFalsy argsFileA.name = false ∧
    parentError [] (normalizeParent argsFileA.parentId) = none ∧
    ((jsOr argsFileA.type "" = "file" ∨ jsOr argsFileA.type "" = "image") →
      jsFalsy argsFileA.data = false →
      (postUpload [] [] sessAB usersAB argsFileA pathD "u1" fidC true).resp
        = Response.created ⟨fidC, uidA, jsOr argsFileA.name "",
            jsOr argsFileA.type "", argsFileA.isPublic.getD false,
            normalizeParent argsFileA.parentId⟩ ∧
      (postUpload [] [] sessAB usersAB argsFileA pathD "u1" fidC true).jobs
        = [⟨uidA, fidC⟩]) :=
  ⟨by decide, by decide, by decide,
    (C3_job_enqueued_for_every_nonfolder [] [] sessAB usersAB argsFileA
      pathD "u1" fidC true uidA (by decide) (by decide) (by decide)).2⟩

/-- C7: for a well-formed `GenerateThumbnails` job on an existing file
with a stored location, the worker acknowledges (calls `done()`, set
only as the `Promise.all` fulfillment handler) exactly when all three
derivative generations and writes (widths 500, 250, 100) succeed; if
any of the three fails the job ends unacknowledged — `notAcked`, the
retryable state — never `acked`. -/
theorem C7_ack_iff_all_derivatives (files : List FileDoc) (disk : Disk)
    (thumb : String → Nat → Option String) (writeOk : Nat → Bool)
    (fid uid : String) (doc : FileDoc) (lp : String)
    (hfid : isValidId fid = true) (huid : isValidId uid = true)
    (hfind : files.find? (fun f => f._id = fid && f.userId = uid) = some doc)
    (hlp : doc.localPath = some lp) :
    ((processFileJob files disk thumb writeOk ⟨some fid, some uid⟩).result
        = JobResult.acked
      ↔ ∀ w ∈ SIZES, genOk disk thumb writeOk lp w = true) ∧
    ((∃ w ∈ SIZES, genOk disk thumb writeOk lp w = false) →
      (processFileJob files disk thumb writeOk ⟨some fid, some uid⟩).result
        = JobResult.notAcked) := by
  have hred : (processFileJob files disk thumb writeOk
      ⟨some fid, some uid⟩).result
      = (if SIZES.all (genOk disk thumb writeOk lp) then JobResult.acked
         else JobResult.notAcked) := by
    simp only [processFileJob, hfid, huid, Bool.not_true, Bool.or_self,
      Bool.false_eq_true, if_false, hfind, hlp]
    by_cases hall : SIZES.all (genOk disk thumb writeOk lp) <;> simp [hall]
  rw [hred]
  constructor
  · constructor
    · intro h
      by_cases hall : SIZES.all (genOk disk thumb writeOk lp) = true
      · exact fun w hw => List.all_eq_true.mp hall w hw
      · rw [if_neg hall] at h
        exact absurd h (by decide)
    · intro h
      rw [if_pos (List.all_eq_true.mpr h)]
  · rintro ⟨w, hw, hfail⟩
    have hnall : ¬ (SIZES.all (genOk disk thumb writeOk lp) = true) := by
      intro hall
      have := List.all_eq_true.mp hall w hw
      rw [hfail] at this
      exact Bool.false_ne_true this
    rw [if_neg hnall]

/-- Witness for C7 at a concrete input: the image `imgDocC` with its
original on disk and an always-succeeding thumbnailer. -/
theorem C7_ack_iff_all_derivatives_witness :
    ((processFileJob [imgDocC] diskOrig thumbFix (fun _ => true)
        ⟨some fidC, some uidA⟩).result = JobResult.acked
      ↔ ∀ w ∈ SIZES,
          genOk diskOrig thumbFix (fun _ => true) "/tmp/files_manager/u1" w
            = true) ∧
    ((∃ w ∈ SIZES,
        genOk diskOrig thumbFix (fun _ => true) "/tmp/files_manager/u1" w
          = false) →
      (processFileJob [imgDocC] diskOrig thumbFix (fun _ => true)
        ⟨some fidC, some uidA⟩).result = JobResult.notAcked) :=
  C7_ack_iff_all_derivatives [imgDocC] diskOrig thumbFix (fun _ => true)
    fidC uidA imgDocC "/tmp/files_manager/u1" (by decide) (by decide)
    (by decide) (by decide)

/-- A fully successful worker delivery: with the original readable,
all three thumbnail generations succeeding and all writes succeeding,
the job is acknowledged and the disk gains exactly the three
derivative entries, written in the source's width order 500, 250,
100. -/
theorem processFileJob_all_ok (files : List FileDoc) (disk : Disk)
    (thumb : String → Nat → Option String) (fid uid : String)
    (doc : FileDoc) (lp orig t5 t2 t1 : String)
    (hfid : isValidId fid = true) (huid : isValidId uid = true)
    (hfind : files.find? (fun f => f._id = fid && f.userId = uid) = some doc)
    (hlp : doc.localPath = some lp)
    (horig : dlookup disk lp = some orig)
    (h5 : thumb orig 500 = some t5) (h2 : thumb orig 250 = some t2)
    (h1 : thumb orig 100 = some t1) :
    processFileJob files disk thumb (fun _ => true) ⟨some fid, some uid⟩ =
      ⟨JobResult.acked,
        dstore (dstore (dstore disk (derivPath lp 500) t5)
          (derivPath lp 250) t2) (derivPath lp 100) t1⟩ := by
  simp only [processFileJob, hfid, huid, Bool.not_true, Bool.or_self,
    Bool.false_eq_true, if_false, hfind, hlp]
  simp [SIZES, genOk, horig, h5, h2, h1, List.foldl_cons, List.foldl_nil,
    List.all_cons, List.all_nil]

/-- C8: thumbnail generation is idempotent. For a job naming an
existing file whose original bytes are on disk and a (deterministic)
thumbnailer succeeding at all three widths, both the first and a
repeated delivery are acknowledged; the disk after running twice holds
exactly the same bytes at every path as after running once; after one
run each width w ∈ {500, 250, 100} has its derivative at the
deterministic location `localPath_w`; and no other path is touched. -/
theorem C8_thumbnails_idempotent (files : List FileDoc) (disk : Disk)
    (thumb : String → Nat → Option String) (fid uid : String)
    (doc : FileDoc) (lp orig t5 t2 t1 : String)
    (hfid : isValidId fid = true) (huid : isValidId uid = true)
    (hfind : files.find? (fun f => f._id = fid && f.userId = uid) = some doc)
    (hlp : doc.localPath = some lp)
    (horig : dlookup disk lp = some orig)
    (h5 : thumb orig 500 = some t5) (h2 : thumb orig 250 = some t2)
    (h1 : thumb orig 100 = some t1) :
    (processFileJob files disk thumb (fun _ => true)
        ⟨some fid, some uid⟩).result = JobResult.acked ∧
    (processFileJob files
        (processFileJob files disk thumb (fun _ => true)
          ⟨some fid, some uid⟩).disk
        thumb (fun _ => true) ⟨some fid, some uid⟩).result
      = JobResult.acked ∧
    (∀ q,
      dlookup (processFileJob files
          (processFileJob files disk thumb (fun _ => true)
            ⟨some fid, some uid⟩).disk
          thumb (fun _ => true) ⟨some fid, some uid⟩).disk q
        = dlookup (processFileJob files disk thumb (fun _ => true)
            ⟨some fid, some uid⟩).disk q) ∧
    (dlookup (processFileJob files disk thumb (fun _ => true)
        ⟨some fid, some uid⟩).disk (derivPath lp 500) = some t5 ∧
     dlookup (processFileJob files disk thumb (fun _ => true)
        ⟨some fid, some uid⟩).disk (derivPath lp 250) = some t2 ∧
     dlookup (processFileJob files disk thumb (fun _ => true)
        ⟨some fid, some uid⟩).disk (derivPath lp 100) = some t1) ∧
    (∀ q, q ≠ derivPath lp 500 → q ≠ derivPath lp 250 →
      q ≠ derivPath lp 100 →
      dlookup (processFileJob files disk thumb (fun _ => true)
          ⟨some fid, some uid⟩).disk q = dlookup disk q) := by
  have n15 : derivPath lp 100 ≠ derivPath lp 500 :=
    derivPath_ne_of_width lp (by decide)
  have n12 : derivPath lp 100 ≠ derivPath lp 250 :=
    derivPath_ne_of_width lp (by decide)
  have n25 : derivPath lp 250 ≠ derivPath lp 500 :=
    derivPath_ne_of_width lp (by decide)
  have e1 := processFileJob_all_ok files disk thumb fid uid doc lp orig
    t5 t2 t1 hfid huid hfind hlp horig h5 h2 h1
  have horig1 : dlookup (dstore (dstore (dstore disk (derivPath lp 500) t5)
      (derivPath lp 250) t2) (derivPath lp 100) t1) lp = some orig := by
    simp only [dstore, dlookup_cons]
    rw [if_neg (derivPath_ne_self lp 100), if_neg (derivPath_ne_self lp 250),
      if_neg (derivPath_ne_self lp 500)]
    exact horig
  have e2 := processFileJob_all_ok files
    (dstore (dstore (dstore disk (derivPath lp 500) t5)
      (derivPath lp 250) t2) (derivPath lp 100) t1)
    thumb fid uid doc lp orig t5 t2 t1 hfid huid hfind hlp horig1 h5 h2 h1
  refine ⟨by rw [e1], ?_, ?_, ?_, ?_⟩
  · simp only [e1]
    simp only [e2]
  · intro q
    simp only [e1, e2]
    simp only [dstore, dlookup_cons]
    by_cases c1 : derivPath lp 100 = q
    · simp [c1]
    · by_cases c2 : derivPath lp 250 = q
      · simp [c1, c2]
      · by_cases c5 : derivPath lp 500 = q
        · simp [c1, c2, c5]
        · simp [c1, c2, c5]
  · simp only [e1]
    simp only [dstore, dlookup_cons]
    refine ⟨?_, ?_, ?_⟩
    · simp [n15, n25]
    · simp [n12, n25]
    · simp [n12, n15]
  · intro q hq5 hq2 hq1
    simp only [e1]
    simp only [dstore, dlookup_cons]
    rw [if_neg (Ne.symm hq1), if_neg (Ne.symm hq2), if_neg (Ne.symm hq5)]

/-- Witness for C8 at a concrete input: the image `imgDocC`, its
original bytes on disk, and the always-succeeding deterministic
thumbnailer `thumbFix`. -/
theorem C8_thumbnails_idempotent_witness :
    dlookup diskOrig "/tmp/files_manager/u1" = some "ORIG" ∧
    ((processFileJob [imgDocC] diskOrig thumbFix (fun _ => true)
        ⟨some fidC, some uidA⟩).result = JobResult.acked ∧
     (processFileJob [imgDocC]
        (processFileJob [imgDocC] diskOrig thumbFix (fun _ => true)
          ⟨some fidC, some uidA⟩).disk
        thumbFix (fun _ => true) ⟨some fidC, some uidA⟩).result
      = JobResult.acked ∧
     (∀ q,
       dlookup (processFileJob [imgDocC]
           (processFileJob [imgDocC] diskOrig thumbFix (fun _ => true)
             ⟨some fidC, some uidA⟩).disk
           thumbFix (fun _ => true) ⟨some fidC, some uidA⟩).disk q
         = dlookup (processFileJob [imgDocC] diskOrig thumbFix (fun _ => true)
             ⟨some fidC, some uidA⟩).disk q) ∧
     (dlookup (processFileJob [imgDocC] diskOrig thumbFix (fun _ => true)
         ⟨some fidC, some uidA⟩).disk (derivPath "/tmp/files_manager/u1" 500)
        = some "500:ORIG" ∧
      dlookup (processFileJob [imgDocC] diskOrig thumbFix (fun _ => true)
         ⟨some fidC, some uidA⟩).disk (derivPath "/tmp/files_manager/u1" 250)
        = some "250:ORIG" ∧
      dlookup (processFileJob [imgDocC] diskOrig thumbFix (fun _ => true)
         ⟨some fidC, some uidA⟩).disk (derivPath "/tmp/files_manager/u1" 100)
        = some "100:ORIG") ∧
     (∀ q, q ≠ derivPath "/tmp/files_manager/u1" 500 →
       q ≠ derivPath "/tmp/files_manager/u1" 250 →
       q ≠ derivPath "/tmp/files_manager/u1" 100 →
       dlookup (processFileJob [imgDocC] diskOrig thumbFix (fun _ => true)
           ⟨some fidC, some uidA⟩).disk q = dlookup diskOrig q)) :=
  ⟨by decide,
    C8_thumbnails_idempotent [imgDocC] diskOrig thumbFix fidC uidA imgDocC
      "/tmp/files_manager/u1" "ORIG" "500:ORIG" "250:ORIG" "100:ORIG"
      (by decide) (by decide) (by decide) (by decide) (by decide)
      (by decide) (by decide) (by decide)⟩

/-- C10: for an authenticated point lookup (GET /files/:id) whose id
parameter is not exactly 24 hexadecimal characters, `getShow`
substitutes the all-zero `NULL_ID` for the lookup and — since real
documents never carry the all-zero generated id — answers 404
`Not found`: the result is the `notFound` response, not an `exception`
(no throw) and not a `badRequest` (no 400-class input error). -/
theorem C10_getShow_invalid_id_notFound (files : List FileDoc)
    (uid id : String) (hinv : isValidId id = false)
    (hnull : ∀ f ∈ files, f._id ≠ NULL_ID) :
    getShow files uid id = Response.notFound := by
  have hfq : files.find? (fun f =>
      f._id = NULL_ID && f.userId = (if isValidId uid then uid else NULL_ID)) = none := by
    rw [List.find?_eq_none]
    intro f hf
    simp only [Bool.and_eq_true, decide_eq_true_eq, not_and]
    intro h1
    exact absurd h1 (hnull f hf)
  simp only [getShow, hinv, Bool.false_eq_true, if_false, hfq]

/-- Witness for C10 at a concrete input: the 2-character id `zz` is
invalid and the lookup over a one-document store answers 404. -/
theorem C10_getShow_invalid_id_notFound_witness :
    isValidId "zz" = false ∧ (∀ f ∈ [pubDocC], f._id ≠ NULL_ID) ∧
      getShow [pubDocC] uidA "zz" = Response.notFound :=
  ⟨by decide, by decide,
    C10_getShow_invalid_id_notFound [pubDocC] uidA "zz" (by decide) (by decide)⟩

/-- C6: a `SetVisibility` call (publish or unpublish) by an
authenticated requester who owns no document with the given id — in
particular by a non-owner of an existing file — answers exactly the
`notFound` response (never `unauthorized`, never a 200 echo), leaves
the collection unchanged, and the response is the very same constant
the handlers produce for a non-existent identifier, so a non-owner
cannot distinguish someone else's file from no file at all. -/
theorem C6_setVisibility_nonowner_notFound (files : List FileDoc)
    (sessions : Sessions) (users : Users) (token idParam : Option String)
    (uid : String)
    (hauth : resolveUser sessions users token = some uid)
    (hval : isValidId (jsOr idParam "") = true)
    (hown : ∀ f ∈ files, f._id = jsOr idParam "" → f.userId ≠ uid) :
    (putPublish files sessions users token idParam).resp = Response.notFound ∧
    (putPublish files sessions users token idParam).files = files ∧
    (putUnpublish files sessions users token idParam).resp = Response.notFound ∧
    (putUnpublish files sessions users token idParam).files = files ∧
    (putPublish [] sessions users token idParam).resp =
      (putPublish files sessions users token idParam).resp ∧
    (putUnpublish [] sessions users token idParam).resp =
      (putUnpublish files sessions users token idParam).resp := by
  have hfind := find_owner_none files (jsOr idParam "") uid hown
  have hfind0 : ([] : List FileDoc).find?
      (fun f => f._id = jsOr idParam "" && f.userId = uid) = none := rfl
  have hp : putPublish files sessions users token idParam =
      ⟨Response.notFound, files⟩ := by
    simp only [putPublish, hauth, hval, Bool.not_true, Bool.false_eq_true,
      if_false, hfind]
  have hu : putUnpublish files sessions users token idParam =
      ⟨Response.notFound, files⟩ := by
    simp only [putUnpublish, hauth, hval, Bool.not_true, Bool.false_eq_true,
      if_false, hfind]
  have hp0 : putPublish [] sessions users token idParam =
      ⟨Response.notFound, []⟩ := by
    simp only [putPublish, hauth, hval, Bool.not_true, Bool.false_eq_true,
      if_false, hfind0]
  have hu0 : putUnpublish [] sessions users token idParam =
      ⟨Response.notFound, []⟩ := by
    simp only [putUnpublish, hauth, hval, Bool.not_true, Bool.false_eq_true,
      if_false, hfind0]
  rw [hp, hu, hp0, hu0]
  exact ⟨rfl, rfl, rfl, rfl, rfl, rfl⟩

/-- Witness for C6 at a concrete input: user B (session `tokB`)
attempts publish/unpublish on user A's existing file `fidC`. -/
theorem C6_setVisibility_nonowner_notFound_witness :
    resolveUser sessAB usersAB (some "tokB") = some uidB ∧
    isValidId (jsOr (some fidC) "") = true ∧
    (∀ f ∈ [pubDocC], f._id = jsOr (some fidC) "" → f.userId ≠ uidB) ∧
    (putPublish [pubDocC] sessAB usersAB (some "tokB") (some fidC)).resp =
      Response.notFound ∧
    (putUnpublish [pubDocC] sessAB usersAB (some "tokB") (some fidC)).resp =
      Response.notFound :=
  ⟨by decide, by decide, by decide,
    (C6_setVisibility_nonowner_notFound [pubDocC] sessAB usersAB
      (some "tokB") (some fidC) uidB (by decide) (by decide) (by decide)).1,
    (C6_setVisibility_nonowner_notFound [pubDocC] sessAB usersAB
      (some "tokB") (some fidC) uidB (by decide) (by decide) (by decide)).2.2.1⟩

end FilesManager
